import Mathlib

/-!
Verification of the resolution pipeline of the global-crisis-monitor
repository: a shallow embedding, in Lean 4, of

* `argus/geo_extractor.py`  — `GeographicExtractor.geocode_location` and
  `GeographicExtractor.extract_locations` (plus `_clean_location_text`),
* `argus/simple_classifier.py` — `SimpleCrisisClassifier.classify_article`,
* `argus/mapper.py` — `CrisisMapper.aggregate_crises`,
* `argus/config.py` — the constants used by the above.

Python strings are modelled as `List Char` (the repository only manipulates
ASCII-ish text with `lower`, `strip`, substring tests and concatenation).
Python floats are modelled as `ℚ`: every concrete coordinate appearing in the
source and in the theorems below is a short decimal whose double rounds the
same way as the exact rational (no value sits on a float rounding boundary),
so the rational model computes the same branch decisions as CPython.
External collaborators (the Nominatim and Mapbox geocoding providers, the
spaCy NER model) are modelled as oracle functions supplied as parameters,
exactly at the boundary where the source calls them.
-/

namespace Argus

/-- Convert a Lean string literal to the `List Char` representation used for
Python strings throughout this development. -/
def chars (s : String) : List Char := s.data

/-- The whitespace characters of Python's `str.strip()` / `\s` for ASCII text:
space, tab, newline, carriage return, vertical tab, form feed. -/
def isPySpace (c : Char) : Bool :=
  c = ' ' || c = '\t' || c = '\n' || c = '\r' || c = '\x0b' || c = '\x0c'

/-- Python `str.lower()` restricted to ASCII (all text in the repository's
tables is ASCII). -/
def pyLower (s : List Char) : List Char := s.map Char.toLower

/-- Python `str.strip()`: drop leading and trailing whitespace. -/
def pyStrip (s : List Char) : List Char :=
  ((s.dropWhile isPySpace).reverse.dropWhile isPySpace).reverse

/-- `startsWith pat s` holds when `s` begins with `pat` (Python `str.startswith`). -/
def startsWith : List Char → List Char → Bool
  | [], _ => true
  | _ :: _, [] => false
  | p :: ps, c :: cs => p = c && startsWith ps cs

/-- Python's substring test `pat in s`. -/
def containsSub (pat : List Char) : List Char → Bool
  | [] => pat.isEmpty
  | c :: cs => startsWith pat (c :: cs) || containsSub pat cs

/-- Normalisation applied by `geocode_location` to build its cache key and its
override-table key: `location_text.lower().strip()`. -/
def normKey (s : List Char) : List Char := pyStrip (pyLower s)

/-! ## GeocodeResolver: `GeographicExtractor.geocode_location`

`geo_extractor.py` lines 173-279.  The geopy/Nominatim call and the Mapbox
HTTP call are external collaborators; each is modelled as an oracle
`List Char → Option (display name × latitude × longitude)` where `none`
covers both "no match" and the transient errors the source catches and logs
(both fall through to the next tier).  The mutable `self.geocoding_cache`
dict is modelled as an association list threaded through the call. -/

/-- Which tier produced a `GeoResult`, mirroring the `raw_data` tag of the
source (`{'source': 'known_crisis_zone'}` vs. provider-supplied raw data). -/
inductive RawSource where
  | knownCrisisZone
  | nominatimSrc
  | mapboxSrc
deriving DecidableEq, Repr

/-- The dictionary built by `geocode_location` on success. -/
structure GeoResult where
  query : List Char
  found_name : List Char
  latitude : ℚ
  longitude : ℚ
  raw_source : RawSource
deriving DecidableEq, Repr

/-- `self.geocoding_cache`: a dict from normalised text to a result, where a
stored `none` is a cached negative ("not found") result. -/
def GeoCache := List (List Char × Option GeoResult)

instance : DecidableEq GeoCache := by
  unfold GeoCache
  infer_instance

/-- Dict lookup: `cache_key in self.geocoding_cache` / `self.geocoding_cache[cache_key]`. -/
def cacheLookup (k : List Char) : GeoCache → Option (Option GeoResult)
  | [] => none
  | (k', v) :: rest => if k' = k then some v else cacheLookup k rest

/-- Dict assignment `self.geocoding_cache[cache_key] = v`: overwrite an
existing binding or append a new one. -/
def cacheInsert (k : List Char) (v : Option GeoResult) : GeoCache → GeoCache
  | [] => [(k, v)]
  | (k', v') :: rest =>
      if k' = k then (k, v) :: rest else (k', v') :: cacheInsert k v rest

/-- The `known_crisis_zones` override table of `geocode_location`
(`geo_extractor.py` lines 189-201), as `(key, (lat, lon, name))`. -/
def knownCrisisZones : List (List Char × (ℚ × ℚ × List Char)) :=
  [ (chars "gaza", ((31.3547 : ℚ), (34.3088 : ℚ), chars "Gaza Strip, Palestine")),
    (chars "gaza strip", ((31.3547 : ℚ), (34.3088 : ℚ), chars "Gaza Strip, Palestine")),
    (chars "west bank", ((31.9522 : ℚ), (35.2332 : ℚ), chars "West Bank, Palestine")),
    (chars "palestine", ((31.9522 : ℚ), (35.2332 : ℚ), chars "Palestine")),
    (chars "syria", ((33.5138 : ℚ), (36.2765 : ℚ), chars "Syria")),
    (chars "yemen", ((15.5527 : ℚ), (48.5164 : ℚ), chars "Yemen")),
    (chars "afghanistan", ((33.9391 : ℚ), (67.7100 : ℚ), chars "Afghanistan")),
    (chars "ukraine", ((50.4501 : ℚ), (30.5234 : ℚ), chars "Ukraine")),
    (chars "sudan", ((15.5007 : ℚ), (32.5599 : ℚ), chars "Sudan")),
    (chars "south sudan", ((6.8770 : ℚ), (31.3070 : ℚ), chars "South Sudan")),
    (chars "somalia", ((5.1521 : ℚ), (46.1996 : ℚ), chars "Somalia")) ]

/-- `location_lower in known_crisis_zones` / `known_crisis_zones[location_lower]`. -/
def zoneLookup (k : List Char) : Option (ℚ × ℚ × List Char) :=
  (knownCrisisZones.find? (fun z => z.1 = k)).map Prod.snd

/-- The two external geocoding providers, as oracles.  `nominatim t = none`
models both "no match" and the transient `GeocoderTimedOut` /
`GeocoderServiceError` cases the source catches; `mapboxToken` models
whether the `MAPBOX_TOKEN` environment variable was set; `mapbox t = none`
models a failed request, an empty `features` list, or a malformed `center`. -/
structure Providers where
  nominatim : List Char → Option (List Char × ℚ × ℚ)
  mapboxToken : Bool
  mapbox : List Char → Option (List Char × ℚ × ℚ)

/-- The outcome of one `geocode_location` call: the returned value, the cache
after the call, and how many external provider requests were attempted
(instrumentation for the idempotence/no-second-call claims). -/
structure GeoOutcome where
  result : Option GeoResult
  cache : GeoCache
  providerCalls : ℕ
deriving DecidableEq

/-- `GeographicExtractor.geocode_location` (`geo_extractor.py` lines 173-279).
Control flow, in source order: (1) cache lookup on
`location_text.lower().strip()`; (2) the `known_crisis_zones` override table
on the same key, whose hit is written to the cache and returned; (3) the
Nominatim provider, whose hit is cached and returned; (4) if a Mapbox token
is configured, the Mapbox provider, whose hit is cached and returned;
(5) otherwise a negative result is cached and `None` returned. -/
def geocode_location (p : Providers) (cache : GeoCache) (location_text : List Char) :
    GeoOutcome :=
  let cache_key := normKey location_text
  match cacheLookup cache_key cache with
  | some v => ⟨v, cache, 0⟩
  | none =>
    match zoneLookup cache_key with
    | some (la, lo, nm) =>
        let result : GeoResult := ⟨location_text, nm, la, lo, .knownCrisisZone⟩
        ⟨some result, cacheInsert cache_key (some result) cache, 0⟩
    | none =>
      match p.nominatim location_text with
      | some (addr, la, lo) =>
          let result : GeoResult := ⟨location_text, addr, la, lo, .nominatimSrc⟩
          ⟨some result, cacheInsert cache_key (some result) cache, 1⟩
      | none =>
        if p.mapboxToken then
          match p.mapbox location_text with
          | some (nm, la, lo) =>
              let result : GeoResult := ⟨location_text, nm, la, lo, .mapboxSrc⟩
              ⟨some result, cacheInsert cache_key (some result) cache, 2⟩
          | none => ⟨none, cacheInsert cache_key none cache, 2⟩
        else ⟨none, cacheInsert cache_key none cache, 1⟩

/-- Caches reachable by the resolver itself: the empty cache of `__init__`,
grown only by `geocode_location` calls (with arbitrary provider behaviour
and arbitrary candidate texts). -/
inductive ReachableCache : GeoCache → Prop where
  | nil : ReachableCache []
  | step (p : Providers) (t : List Char) {c : GeoCache} :
      ReachableCache c → ReachableCache ((geocode_location p c t).cache)

/-- A provider environment with no Mapbox token and a Nominatim oracle that
never matches; used for concrete counterexample runs. -/
def noProviders : Providers := ⟨fun _ => none, false, fun _ => none⟩

/-- A stale cache entry used to exercise `geocode_location` on a cache whose
contents did not come from the resolver itself. -/
def elsewhereResult : GeoResult :=
  ⟨chars "gaza", chars "Elsewhere", 0, 0, .nominatimSrc⟩

end Argus

namespace Argus

theorem cacheLookup_insert_self (k : List Char) (v : Option GeoResult) (c : GeoCache) :
    cacheLookup k (cacheInsert k v c) = some v := by
  induction c with
  | nil => simp [cacheInsert, cacheLookup]
  | cons hd tl ih =>
      by_cases h : hd.1 = k
      · simp [cacheInsert, h, cacheLookup]
      · simp [cacheInsert, h, cacheLookup, ih]

theorem cacheLookup_insert_ne (k k' : List Char) (v : Option GeoResult) (c : GeoCache)
    (hne : k' ≠ k) : cacheLookup k (cacheInsert k' v c) = cacheLookup k c := by
  induction c with
  | nil => simp [cacheInsert, cacheLookup, hne]
  | cons hd tl ih =>
      by_cases h : hd.1 = k'
      · simp [cacheInsert, h, cacheLookup, hne]
      · simp only [cacheInsert, h, if_false]
        by_cases h2 : hd.1 = k
        · simp [cacheLookup, h2]
        · simp [cacheLookup, h2, ih]

/-- After any `geocode_location` call, the normalised key of the queried text
is bound in the resulting cache to exactly the returned value. -/
theorem geocode_caches_result (p : Providers) (c : GeoCache) (t : List Char) :
    cacheLookup (normKey t) (geocode_location p c t).cache
      = some (geocode_location p c t).result := by
  unfold geocode_location
  cases hl : cacheLookup (normKey t) c with
  | some v => simp [hl]
  | none =>
      cases hz : zoneLookup (normKey t) with
      | some z =>
          obtain ⟨la, lo, nm⟩ := z
          simp [hl, hz, cacheLookup_insert_self]
      | none =>
          cases hn : p.nominatim t with
          | some r =>
              obtain ⟨addr, la, lo⟩ := r
              simp [hl, hz, hn, cacheLookup_insert_self]
          | none =>
              by_cases hm : p.mapboxToken
              · cases hmb : p.mapbox t with
                | some r =>
                    obtain ⟨nm, la, lo⟩ := r
                    simp [hl, hz, hn, hm, hmb, cacheLookup_insert_self]
                | none => simp [hl, hz, hn, hm, hmb, cacheLookup_insert_self]
              · simp [hl, hz, hn, hm, cacheLookup_insert_self]

/-- Branch analysis of the cache mutation performed by one `geocode_location`
call: either a cache hit leaves the cache unchanged, or an override hit
inserts the pinned result at the normalised key, or a provider/negative
outcome inserts at a key that is not in the override table. -/
theorem geocode_cache_spec (p : Providers) (c : GeoCache) (t : List Char) :
    (geocode_location p c t).cache = c ∨
    (∃ la lo nm, zoneLookup (normKey t) = some (la, lo, nm) ∧
       (geocode_location p c t).cache
         = cacheInsert (normKey t) (some ⟨t, nm, la, lo, .knownCrisisZone⟩) c) ∨
    (zoneLookup (normKey t) = none ∧
       ∃ v, (geocode_location p c t).cache = cacheInsert (normKey t) v c) := by
  unfold geocode_location
  cases hl : cacheLookup (normKey t) c with
  | some v => simp [hl]
  | none =>
      cases hz : zoneLookup (normKey t) with
      | some z =>
          obtain ⟨la, lo, nm⟩ := z
          refine Or.inr (Or.inl ⟨la, lo, nm, rfl, ?_⟩)
          simp [hl, hz]
      | none =>
          refine Or.inr (Or.inr ⟨rfl, ?_⟩)
          cases hn : p.nominatim t with
          | some r =>
              obtain ⟨addr, la, lo⟩ := r
              exact ⟨some ⟨t, addr, la, lo, .nominatimSrc⟩, by simp [hl, hz, hn]⟩
          | none =>
              by_cases hm : p.mapboxToken
              · cases hmb : p.mapbox t with
                | some r =>
                    obtain ⟨nm, la, lo⟩ := r
                    exact ⟨some ⟨t, nm, la, lo, .mapboxSrc⟩, by simp [hl, hz, hn, hm, hmb]⟩
                | none => exact ⟨none, by simp [hl, hz, hn, hm, hmb]⟩
              · exact ⟨none, by simp [hl, hz, hn, hm]⟩

/-- Invariant of every cache the resolver can build by itself: a cached value
stored under an override-table key always carries the pinned coordinates and
canonical name of that key (the provider and negative tiers never write to
override keys, and the override tier writes exactly the pinned data). -/
theorem reachable_cache_override_invariant {c : GeoCache} (hc : ReachableCache c) :
    ∀ k la lo nm, zoneLookup k = some (la, lo, nm) →
      ∀ v, cacheLookup k c = some v →
        ∃ r, v = some r ∧ r.latitude = la ∧ r.longitude = lo ∧ r.found_name = nm := by
  induction hc with
  | nil => intro k la lo nm _ v hv; simp [cacheLookup] at hv
  | step p t hprev ih =>
      rename_i c0
      intro k la lo nm hz v hv
      rcases geocode_cache_spec p c0 t with heq | ⟨la', lo', nm', hz', heq⟩ | ⟨hznone, v', heq⟩
      · rw [heq] at hv
        exact ih k la lo nm hz v hv
      · rw [heq] at hv
        by_cases hk : normKey t = k
        · subst hk
          rw [cacheLookup_insert_self] at hv
          obtain rfl : some (⟨t, nm', la', lo', RawSource.knownCrisisZone⟩ : GeoResult) = v :=
            Option.some.inj hv
          rw [hz'] at hz
          obtain ⟨h1, h2, h3⟩ : la' = la ∧ lo' = lo ∧ nm' = nm := by
            have h := Option.some.inj hz
            exact ⟨congrArg (·.1) h, congrArg (·.2.1) h, congrArg (·.2.2) h⟩
          exact ⟨⟨t, nm', la', lo', .knownCrisisZone⟩, rfl, h1, h2, h3⟩
        · rw [cacheLookup_insert_ne _ _ _ _ hk] at hv
          exact ih k la lo nm hz v hv
      · rw [heq] at hv
        by_cases hk : normKey t = k
        · subst hk
          rw [hznone] at hz
          exact absurd hz (by simp)
        · rw [cacheLookup_insert_ne _ _ _ _ hk] at hv
          exact ih k la lo nm hz v hv

/-- Claim C1, counterexample: the claim asserts the override table is
consulted before the cache lookup, and that an override-matching candidate
returns the pinned coordinates regardless of the cache's current contents.
In the source (`geo_extractor.py` lines 183-186 vs. 203-215) the cache is
checked first: on a cache pre-seeded with a stale entry under the key
`"gaza"`, `geocode_location("gaza")` returns that stale entry, not the
pinned `(31.3547, 34.3088, "Gaza Strip, Palestine")` override. -/
theorem c1_cache_checked_before_override_counterexample :
    (geocode_location noProviders [(chars "gaza", some elsewhereResult)]
        (chars "gaza")).result = some elsewhereResult ∧
      elsewhereResult.found_name ≠ chars "Gaza Strip, Palestine" ∧
      elsewhereResult.latitude ≠ (31.3547 : ℚ) := by
  refine ⟨rfl, by decide, ?_⟩
  show (0 : ℚ) ≠ (31.3547 : ℚ)
  norm_num

/-- Claim C1, amended: `geocode_location` consults the cache *before* the
override table, but for every cache state the resolver can reach on its own
(starting from the empty cache of `__init__` and mutated only by
`geocode_location` itself), a candidate whose normalised text is an
override-table key still resolves to the pinned coordinates and canonical
display name, because cache entries under override keys always hold the
pinned data. -/
theorem c1_override_wins_on_reachable_cache (p : Providers) (c : GeoCache)
    (t : List Char) (hc : ReachableCache c) (la lo : ℚ) (nm : List Char)
    (hz : zoneLookup (normKey t) = some (la, lo, nm)) :
    ∃ r, (geocode_location p c t).result = some r ∧
      r.latitude = la ∧ r.longitude = lo ∧ r.found_name = nm := by
  unfold geocode_location
  cases hl : cacheLookup (normKey t) c with
  | some v =>
      obtain ⟨r, hr, h1, h2, h3⟩ :=
        reachable_cache_override_invariant hc (normKey t) la lo nm hz v hl
      subst hr
      exact ⟨r, by simp [hl], h1, h2, h3⟩
  | none =>
      exact ⟨⟨t, nm, la, lo, .knownCrisisZone⟩, by simp [hl, hz], rfl, rfl, rfl⟩

/-- Witness for C1 (amended): resolving `"Gaza"` against the empty (hence
reachable) cache yields the pinned Gaza Strip coordinates. -/
theorem c1_override_wins_witness :
    ∃ r, (geocode_location noProviders [] (chars "Gaza")).result = some r ∧
      r.latitude = (31.3547 : ℚ) ∧ r.longitude = (34.3088 : ℚ) ∧
      r.found_name = chars "Gaza Strip, Palestine" :=
  c1_override_wins_on_reachable_cache noProviders [] (chars "Gaza")
    ReachableCache.nil _ _ _ rfl

/-- Claim C4: resolving a second candidate with the same normalised text as a
first one, later in the same run, returns exactly the first call's result
(including a cached negative result), leaves the cache unchanged, and makes
no external provider call — for arbitrary provider behaviour on both calls. -/
theorem c4_geocode_idempotent (p p' : Providers) (c : GeoCache)
    (t₁ t₂ : List Char) (h : normKey t₂ = normKey t₁) :
    geocode_location p' (geocode_location p c t₁).cache t₂ =
      ⟨(geocode_location p c t₁).result, (geocode_location p c t₁).cache, 0⟩ := by
  have hc := geocode_caches_result p c t₁
  generalize hO : geocode_location p c t₁ = o₁ at *
  simp only [geocode_location]
  rw [h, hc]

/-- Witness for C4: `"Paris "` then `"paris"` (same normalised key) against
providers that always fail; the second call returns the first (negative,
cached) result with zero provider calls. -/
theorem c4_geocode_idempotent_witness :
    normKey (chars "paris") = normKey (chars "Paris ") ∧
    geocode_location noProviders
        (geocode_location noProviders [] (chars "Paris ")).cache (chars "paris") =
      ⟨(geocode_location noProviders [] (chars "Paris ")).result,
       (geocode_location noProviders [] (chars "Paris ")).cache, 0⟩ :=
  ⟨by decide,
   c4_geocode_idempotent noProviders noProviders [] (chars "Paris ") (chars "paris")
     (by decide)⟩

/-- The pinned override result the source builds for the key `"gaza"`. -/
def gazaPinned : GeoResult :=
  ⟨chars "gaza", chars "Gaza Strip, Palestine", (31.3547 : ℚ), (34.3088 : ℚ),
   .knownCrisisZone⟩

/-- Claim C5, counterexample: the claim says an override hit leaves the
geocoding cache unchanged (overrides are never cached).  In the source
(`geo_extractor.py` line 214) the override branch executes
`self.geocoding_cache[cache_key] = result`: resolving `"gaza"` from the
empty cache leaves the cache holding the pinned override result, so the
cache did change. -/
theorem c5_override_never_cached_counterexample :
    (geocode_location noProviders [] (chars "gaza")).cache
        = [(chars "gaza", some gazaPinned)] ∧
      [(chars "gaza", some gazaPinned)] ≠ ([] : GeoCache) := by
  exact ⟨rfl, by simp⟩

/-- Claim C5, amended: an override-table hit *is* written to the cache: when
the normalised key is absent from the cache and matches the override table,
`geocode_location` inserts the pinned result under that key (and makes no
provider call); only a cache hit leaves the cache unchanged. -/
theorem c5_override_hit_writes_cache (p : Providers) (c : GeoCache)
    (t : List Char) (la lo : ℚ) (nm : List Char)
    (hmiss : cacheLookup (normKey t) c = none)
    (hz : zoneLookup (normKey t) = some (la, lo, nm)) :
    geocode_location p c t =
      ⟨some ⟨t, nm, la, lo, .knownCrisisZone⟩,
       cacheInsert (normKey t) (some ⟨t, nm, la, lo, .knownCrisisZone⟩) c, 0⟩ := by
  simp only [geocode_location]
  rw [hmiss, hz]

/-- Witness for C5 (amended): resolving `"gaza"` against the empty cache
inserts the pinned Gaza Strip result under the key `"gaza"`. -/
theorem c5_override_hit_writes_cache_witness :
    geocode_location noProviders [] (chars "gaza") =
      ⟨some ⟨chars "gaza", chars "Gaza Strip, Palestine", (31.3547 : ℚ),
             (34.3088 : ℚ), .knownCrisisZone⟩,
       cacheInsert (normKey (chars "gaza"))
         (some ⟨chars "gaza", chars "Gaza Strip, Palestine", (31.3547 : ℚ),
                (34.3088 : ℚ), .knownCrisisZone⟩) [], 0⟩ :=
  c5_override_hit_writes_cache noProviders [] (chars "gaza") _ _ _ rfl rfl

/-! ## CrisisClassifier: `SimpleCrisisClassifier.classify_article`

`simple_classifier.py` lines 104-211.  The static tables of `__init__`
(lines 21-102) are transcribed verbatim, in dict insertion order.  Articles
are modelled with the `dict.get` defaults already applied
(`title`/`content` default `""`, `source_category` defaults `"Mixed"`,
`priority` defaults `"medium"`). -/

/-- `self.category_keywords['Natural Disasters']`. -/
def naturalDisasterKeywords : List (List Char) :=
  [chars "earthquake", chars "quake", chars "seismic", chars "tsunami",
   chars "flood", chars "flooding", chars "hurricane", chars "typhoon", chars "cyclone",
   chars "wildfire", chars "fire", chars "blaze", chars "volcano", chars "volcanic", chars "eruption",
   chars "landslide", chars "mudslide", chars "avalanche", chars "drought",
   chars "storm", chars "tornado", chars "heatwave", chars "cold snap"]

/-- `self.category_keywords['Political Conflicts']`. -/
def politicalConflictKeywords : List (List Char) :=
  [chars "war", chars "conflict", chars "fighting", chars "battle", chars "combat",
   chars "military", chars "troops", chars "invasion", chars "occupation",
   chars "coup", chars "regime", chars "civil war", chars "insurgency",
   chars "rebel", chars "armed conflict", chars "airstrike", chars "bombing",
   chars "missile", chars "artillery", chars "ceasefire", chars "peace talks"]

/-- `self.category_keywords['Human Rights Violations']` (21 keywords). -/
def hrvKeywords : List (List Char) :=
  [chars "genocide", chars "ethnic cleansing", chars "persecution",
   chars "torture", chars "extrajudicial", chars "disappearance",
   chars "arbitrary detention", chars "mass detention", chars "concentration camp",
   chars "forced labor", chars "slavery", chars "human trafficking",
   chars "apartheid", chars "discrimination", chars "oppression",
   chars "atrocities", chars "war crimes", chars "crimes against humanity",
   chars "crackdown", chars "repression", chars "authoritarian"]

/-- `self.category_keywords['Humanitarian Crises']`. -/
def humanitarianKeywords : List (List Char) :=
  [chars "refugee", chars "displaced", chars "internally displaced", chars "idp",
   chars "humanitarian crisis", chars "famine", chars "starvation", chars "malnutrition",
   chars "hunger crisis", chars "food insecurity", chars "aid", chars "relief",
   chars "humanitarian aid", chars "emergency response", chars "evacuation",
   chars "shelter", chars "asylum", chars "migration crisis"]

/-- `self.category_keywords['Health Emergencies']`. -/
def healthKeywords : List (List Char) :=
  [chars "outbreak", chars "epidemic", chars "pandemic", chars "disease",
   chars "virus", chars "infection", chars "contagious", chars "cholera",
   chars "ebola", chars "measles", chars "malaria", chars "tuberculosis",
   chars "polio", chars "covid", chars "coronavirus", chars "health crisis",
   chars "medical emergency", chars "hospital", chars "healthcare collapse"]

/-- `self.category_keywords['Economic Crises']`. -/
def economicKeywords : List (List Char) :=
  [chars "economic crisis", chars "recession", chars "depression", chars "collapse",
   chars "inflation", chars "hyperinflation", chars "unemployment", chars "poverty",
   chars "financial crisis", chars "debt crisis", chars "bankruptcy",
   chars "economic collapse", chars "market crash", chars "currency"]

/-- `self.category_keywords['Environmental Issues']`. -/
def environmentalKeywords : List (List Char) :=
  [chars "climate crisis", chars "global warming", chars "climate change",
   chars "pollution", chars "deforestation", chars "biodiversity",
   chars "extinction", chars "environmental disaster", chars "toxic",
   chars "chemical spill", chars "oil spill", chars "contamination"]

/-- `self.category_keywords`, in dict insertion order. -/
def categoryKeywords : List (List Char × List (List Char)) :=
  [(chars "Natural Disasters", naturalDisasterKeywords),
   (chars "Political Conflicts", politicalConflictKeywords),
   (chars "Human Rights Violations", hrvKeywords),
   (chars "Humanitarian Crises", humanitarianKeywords),
   (chars "Health Emergencies", healthKeywords),
   (chars "Economic Crises", economicKeywords),
   (chars "Environmental Issues", environmentalKeywords)]

/-- `self.crisis_zone_mapping`, in dict insertion order. -/
def crisisZoneMapping : List (List Char × List Char) :=
  [(chars "uyghur", chars "Human Rights Violations"),
   (chars "xinjiang", chars "Human Rights Violations"),
   (chars "uighur", chars "Human Rights Violations"),
   (chars "el salvador", chars "Human Rights Violations"),
   (chars "tigray", chars "Humanitarian Crises"),
   (chars "yemen", chars "Humanitarian Crises"),
   (chars "rohingya", chars "Human Rights Violations"),
   (chars "myanmar", chars "Human Rights Violations"),
   (chars "darfur", chars "Human Rights Violations"),
   (chars "nagorno-karabakh", chars "Political Conflicts"),
   (chars "west papua", chars "Human Rights Violations"),
   (chars "gaza", chars "Political Conflicts"),
   (chars "palestine", chars "Political Conflicts"),
   (chars "ukraine", chars "Political Conflicts"),
   (chars "syria", chars "Political Conflicts"),
   (chars "afghanistan", chars "Humanitarian Crises"),
   (chars "somalia", chars "Humanitarian Crises"),
   (chars "sudan", chars "Humanitarian Crises"),
   (chars "haiti", chars "Humanitarian Crises")]

/-- The `exclusions` list of `classify_article` (lines 117-132). -/
def exclusionTerms : List (List Char) :=
  [chars "singer", chars "musician", chars "artist", chars "band", chars "album",
   chars "concert", chars "tour",
   chars "celebrity", chars "actor", chars "actress", chars "movie", chars "film",
   chars "hollywood",
   chars "sports", chars "game", chars "match", chars "player", chars "team",
   chars "championship",
   chars "fashion", chars "runway", chars "designer",
   chars "cancels tour", chars "cancels show", chars "postpones tour",
   chars "book tour", chars "music tour", chars "concert tour",
   chars "opinion", chars "op-ed", chars "editorial", chars "analysis",
   chars "commentary", chars "column",
   chars "live blog", chars "live updates", chars "explainer", chars "timeline",
   chars "q&a",
   chars "newsletter", chars "edition", chars "manifesto", chars "humanifesto",
   chars "webinar", chars "podcast", chars "event announcement",
   chars "upcoming event",
   chars "publication launch", chars "new report available",
   chars "press release about report"]

/-- The generic-publication title markers of line 135. -/
def titleExclusionTerms : List (List Char) :=
  [chars "edition", chars "newsletter", chars "manifesto", chars "podcast",
   chars "webinar", chars "opinion", chars "op-ed", chars "analysis",
   chars "live blog", chars "live updates", chars "explainer", chars "timeline",
   chars "q&a"]

/-- The `crisis_impact_terms` list of line 141. -/
def crisisImpactTerms : List (List Char) :=
  [chars "killed", chars "died", chars "deaths", chars "injured", chars "attack",
   chars "bombing", chars "war"]

/-- An article as consumed by `classify_article`, with the `dict.get`
defaults already resolved (`source_category` is `"Mixed"` when the article
carries no source tag, `priority` is `"medium"` when absent). -/
structure Article where
  title : List Char
  content : List Char
  source_category : List Char
  priority : List Char

/-- The dict built by `SimpleCrisisClassifier._create_result` (lines
201-211), minus the back-reference to the input article.  `all_scores` is
the single-entry dict `{category: confidence}`. -/
structure ClassResult where
  predicted_category : List Char
  confidence : ℚ
  is_crisis : Bool
  classification_method : List Char
  all_scores : List Char × ℚ
deriving DecidableEq

/-- `_create_result`: `is_crisis = category != 'Unknown' and confidence >= 0.25`. -/
def mkResult (category : List Char) (confidence : ℚ) (method : List Char) :
    ClassResult :=
  ⟨category, confidence,
   !(category == chars "Unknown") && decide ((1/4 : ℚ) ≤ confidence),
   method, (category, confidence)⟩

/-- `text = f"{title} {content}".lower()`. -/
def textOf (a : Article) : List Char := pyLower (a.title ++ [' '] ++ a.content)

/-- Line 135: `any(term in title for term in [...])` on the lowercased title. -/
def excludedPublicationGate (title : List Char) : Bool :=
  titleExclusionTerms.any fun t => containsSub t (pyLower title)

/-- Lines 139-143: entertainment/soft-news markers present in the combined
text with no crisis-impact term present. -/
def exclusionGate (text : List Char) : Bool :=
  (exclusionTerms.any fun t => containsSub t text) &&
    !(crisisImpactTerms.any fun t => containsSub t text)

/-- Line 159: `score = sum(1 for keyword in keywords if keyword in text)`. -/
def kwScore (text : List Char) (kws : List (List Char)) : ℕ :=
  kws.countP fun k => containsSub k text

/-- Lines 156-163: the `category_scores` / `category_match_counts` pair, as
one list of `(category, score / len(keywords), raw score)` triples, keeping
only categories with a positive raw score, in dict iteration order. -/
def scoreTriples (text : List Char) : List (List Char × ℚ × ℕ) :=
  categoryKeywords.filterMap fun ck =>
    let s := kwScore text ck.2
    if 0 < s then some (ck.1, (s : ℚ) / (ck.2.length : ℚ), s) else none

/-- Python `max(..., key=...)`: scan left to right, replacing the current
best only on a strictly greater key, so the first maximum wins ties. -/
def pyMaxScoreGo (best : List Char × ℚ × ℕ) :
    List (List Char × ℚ × ℕ) → List Char × ℚ × ℕ
  | [] => best
  | e :: rest =>
      if best.2.1 < e.2.1 then pyMaxScoreGo e rest else pyMaxScoreGo best rest

/-- `max(category_scores, key=category_scores.get)` over the insertion-order
score list; `none` models the empty dict (`if category_scores:` false). -/
def pyMaxScore : List (List Char × ℚ × ℕ) → Option (List Char × ℚ × ℕ)
  | [] => none
  | e :: rest => some (pyMaxScoreGo e rest)

/-- `SimpleCrisisClassifier.classify_article` (`simple_classifier.py` lines
104-179): exclusion gates, then source-trust shortcut, then crisis-zone
lookup, then keyword scoring with the HRV raw-count gate and the 0.25
confidence floor, then the `Unknown` default. -/
def classify_article (a : Article) : ClassResult :=
  let text := textOf a
  if excludedPublicationGate a.title then
    mkResult (chars "Unknown") 0 (chars "excluded_publication")
  else if exclusionGate text then
    mkResult (chars "Unknown") 0 (chars "excluded_non_crisis")
  else if a.source_category ≠ chars "Mixed" then
    mkResult a.source_category
      (if a.priority = chars "high" then 9/10 else 7/10) (chars "source_trust")
  else
    match crisisZoneMapping.find? (fun z => containsSub z.1 text) with
    | some z => mkResult z.2 (17/20) (chars "crisis_zone")
    | none =>
      match pyMaxScore (scoreTriples text) with
      | none => mkResult (chars "Unknown") 0 (chars "no_match")
      | some (cat, ns, raw) =>
          let confidence := min (ns * 2) (19/20)
          if cat = chars "Human Rights Violations" ∧ raw < 2 then
            mkResult (chars "Unknown") 0 (chars "insufficient_hrv_evidence")
          else if (1/4 : ℚ) ≤ confidence then
            mkResult cat confidence (chars "keyword_match")
          else
            mkResult (chars "Unknown") 0 (chars "no_match")

/-- When both exclusion gates decline, the article carries no source tag and
no crisis-zone name matches, `classify_article` reduces to the keyword
scoring stage. -/
theorem classify_keyword_stage (a : Article)
    (h1 : excludedPublicationGate a.title = false)
    (h2 : exclusionGate (textOf a) = false)
    (h3 : a.source_category = chars "Mixed")
    (h4 : crisisZoneMapping.find? (fun z => containsSub z.1 (textOf a)) = none) :
    classify_article a =
      match pyMaxScore (scoreTriples (textOf a)) with
      | none => mkResult (chars "Unknown") 0 (chars "no_match")
      | some (cat, ns, raw) =>
          let confidence := min (ns * 2) (19/20)
          if cat = chars "Human Rights Violations" ∧ raw < 2 then
            mkResult (chars "Unknown") 0 (chars "insufficient_hrv_evidence")
          else if (1/4 : ℚ) ≤ confidence then
            mkResult cat confidence (chars "keyword_match")
          else
            mkResult (chars "Unknown") 0 (chars "no_match") := by
  simp [classify_article, h1, h2, h3, h4]

/-- When every category keyword count except Human Rights Violations is
zero, the score table holds at most the HRV entry, with normalised score
`raw / 21` (the HRV list has 21 keywords). -/
theorem scoreTriples_only_hrv (text : List Char) (s : ℕ)
    (hN : kwScore text naturalDisasterKeywords = 0)
    (hP : kwScore text politicalConflictKeywords = 0)
    (hH : kwScore text hrvKeywords = s)
    (hU : kwScore text humanitarianKeywords = 0)
    (hE : kwScore text healthKeywords = 0)
    (hC : kwScore text economicKeywords = 0)
    (hV : kwScore text environmentalKeywords = 0) :
    scoreTriples text =
      if 0 < s then [(chars "Human Rights Violations", (s : ℚ) / 21, s)]
      else [] := by
  have hlen : (hrvKeywords.length : ℚ) = 21 := by norm_num [hrvKeywords]
  simp only [scoreTriples, categoryKeywords, List.filterMap_cons,
    List.filterMap_nil, hN, hP, hH, hU, hE, hC, hV, hlen]
  by_cases hs : 0 < s <;> simp [hs]

/-- The hypotheses shared by all parts of claim C2: no exclusion marker
fires, no source tag, no crisis-zone name, and the only positive category
keyword count is Human Rights Violations with raw count `s`. -/
def KeywordOnlyHRV (a : Article) (s : ℕ) : Prop :=
  excludedPublicationGate a.title = false ∧
  exclusionGate (textOf a) = false ∧
  a.source_category = chars "Mixed" ∧
  crisisZoneMapping.find? (fun z => containsSub z.1 (textOf a)) = none ∧
  kwScore (textOf a) naturalDisasterKeywords = 0 ∧
  kwScore (textOf a) politicalConflictKeywords = 0 ∧
  kwScore (textOf a) hrvKeywords = s ∧
  kwScore (textOf a) humanitarianKeywords = 0 ∧
  kwScore (textOf a) healthKeywords = 0 ∧
  kwScore (textOf a) economicKeywords = 0 ∧
  kwScore (textOf a) environmentalKeywords = 0

/-- Claim C2, amended.  One HRV keyword and nothing else: rejected by the
HRV raw-count gate (method `insufficient_hrv_evidence`).  Two distinct HRV
keywords and nothing else: the raw-count gate passes but the confidence
`min(2/21 * 2, 0.95) = 4/21 < 0.25` falls below the density floor, so the
article is still classified `Unknown` (method `no_match`) — not Human
Rights Violations as the claim asserts.  Three distinct HRV keywords are
required, which yield the HRV category with confidence `6/21 = 2/7`. -/
theorem c2_hrv_gating_corrected :
    (∀ a : Article, KeywordOnlyHRV a 1 →
        classify_article a =
          mkResult (chars "Unknown") 0 (chars "insufficient_hrv_evidence")) ∧
    (∀ a : Article, KeywordOnlyHRV a 2 →
        classify_article a = mkResult (chars "Unknown") 0 (chars "no_match")) ∧
    (∀ a : Article, KeywordOnlyHRV a 3 →
        classify_article a =
          mkResult (chars "Human Rights Violations") (2/7)
            (chars "keyword_match")) := by
  refine ⟨?_, ?_, ?_⟩ <;>
    · rintro a ⟨h1, h2, h3, h4, hN, hP, hH, hU, hE, hC, hV⟩
      rw [classify_keyword_stage a h1 h2 h3 h4,
        scoreTriples_only_hrv _ _ hN hP hH hU hE hC hV]
      norm_num [pyMaxScore, pyMaxScoreGo, min_def]

/-- A concrete article whose combined text contains exactly the two distinct
HRV keywords `genocide` and `torture` and no other keyword, zone, source tag
or exclusion marker. -/
def hrvTwoArticle : Article :=
  ⟨chars "", chars "genocide torture", chars "Mixed", chars "medium"⟩

/-- Claim C2, counterexample: `hrvTwoArticle` contains two distinct HRV
keywords and triggers nothing else, yet `classify_article` returns
`Unknown` (confidence `4/21` fails the `>= 0.25` floor of line 175), not
the Human Rights Violations category the claim requires. -/
theorem c2_two_hrv_keywords_counterexample :
    kwScore (textOf hrvTwoArticle) hrvKeywords = 2 ∧
    classify_article hrvTwoArticle = mkResult (chars "Unknown") 0 (chars "no_match") ∧
    chars "Unknown" ≠ chars "Human Rights Violations" := by
  have h1 : excludedPublicationGate hrvTwoArticle.title = false := by decide
  have h2 : exclusionGate (textOf hrvTwoArticle) = false := by decide
  have h3 : hrvTwoArticle.source_category = chars "Mixed" := by decide
  have h4 : crisisZoneMapping.find?
      (fun z => containsSub z.1 (textOf hrvTwoArticle)) = none := by decide
  have hN : kwScore (textOf hrvTwoArticle) naturalDisasterKeywords = 0 := by decide
  have hP : kwScore (textOf hrvTwoArticle) politicalConflictKeywords = 0 := by decide
  have hH : kwScore (textOf hrvTwoArticle) hrvKeywords = 2 := by decide
  have hU : kwScore (textOf hrvTwoArticle) humanitarianKeywords = 0 := by decide
  have hE : kwScore (textOf hrvTwoArticle) healthKeywords = 0 := by decide
  have hC : kwScore (textOf hrvTwoArticle) economicKeywords = 0 := by decide
  have hV : kwScore (textOf hrvTwoArticle) environmentalKeywords = 0 := by decide
  refine ⟨hH, ?_, by decide⟩
  rw [classify_keyword_stage _ h1 h2 h3 h4,
    scoreTriples_only_hrv _ _ hN hP hH hU hE hC hV]
  norm_num [pyMaxScore, pyMaxScoreGo, min_def]

/-- Witness for C2 (amended): three concrete single-keyword articles
exercise all three parts — `genocide` alone is gated, `genocide torture` is
below the density floor, `genocide torture apartheid` classifies as Human
Rights Violations. -/
theorem c2_hrv_gating_witness :
    classify_article ⟨chars "", chars "genocide", chars "Mixed", chars "medium"⟩
        = mkResult (chars "Unknown") 0 (chars "insufficient_hrv_evidence") ∧
    classify_article ⟨chars "", chars "genocide torture apartheid", chars "Mixed",
        chars "medium"⟩
        = mkResult (chars "Human Rights Violations") (2/7) (chars "keyword_match") :=
  ⟨c2_hrv_gating_corrected.1 _
     ⟨by decide, by decide, by decide, by decide, by decide, by decide,
      by decide, by decide, by decide, by decide, by decide⟩,
   c2_hrv_gating_corrected.2.2 _
     ⟨by decide, by decide, by decide, by decide, by decide, by decide,
      by decide, by decide, by decide, by decide, by decide⟩⟩

/-- Claim C7: an article titled exactly `"Weekly News Roundup - Edition 12"`
is classified `Unknown` with confidence 0 by the generic-publication title
gate (`excluded_publication`), whatever its body text, source category tag
or priority — the gate runs before the source-trust shortcut and
short-circuits. -/
theorem c7_excluded_publication (content source_category priority : List Char) :
    classify_article
        ⟨chars "Weekly News Roundup - Edition 12", content, source_category,
         priority⟩
      = mkResult (chars "Unknown") 0 (chars "excluded_publication") := by
  have h : excludedPublicationGate (chars "Weekly News Roundup - Edition 12")
      = true := by decide
  simp [classify_article, h]

/-- Witness for C7: a crisis-laden body with a trusted source tag and high
priority still yields the excluded result. -/
theorem c7_excluded_publication_witness :
    classify_article
        ⟨chars "Weekly News Roundup - Edition 12",
         chars "war earthquake famine killed thousands in gaza",
         chars "Natural Disasters", chars "high"⟩
      = mkResult (chars "Unknown") 0 (chars "excluded_publication") :=
  c7_excluded_publication _ _ _

/-! ## Location extraction: `GeographicExtractor.extract_locations`

`geo_extractor.py` lines 78-171.  The spaCy pipeline is the external
entity-recognition collaborator; it is modelled as an oracle
`List Char → List SpacyEnt` producing the `doc.ents` list. -/

/-- One entity from `doc.ents`: surface text, NER label and char span. -/
structure SpacyEnt where
  text : List Char
  label : List Char
  start_char : ℕ
  end_char : ℕ

/-- The geographic labels accepted by line 100. -/
def geoLabels : List (List Char) :=
  [chars "GPE", chars "LOC", chars "GEOPOLITICAL"]

/-- The `non_geographic_terms` set of `_clean_location_text` (lines 156-162). -/
def nonGeographicTerms : List (List Char) :=
  [chars "today", chars "yesterday", chars "tomorrow", chars "monday",
   chars "tuesday", chars "wednesday", chars "thursday", chars "friday",
   chars "saturday", chars "sunday", chars "january", chars "february",
   chars "march", chars "april", chars "may", chars "june", chars "july",
   chars "august", chars "september", chars "october", chars "november",
   chars "december", chars "am", chars "pm", chars "news", chars "report",
   chars "article", chars "story", chars "breaking", chars "update"]

/-- `re.search(r'[a-zA-Z]', ...)` membership test for one character. -/
def isAsciiLetter (c : Char) : Bool :=
  ('a' ≤ c && c ≤ 'z') || ('A' ≤ c && c ≤ 'Z')

/-- `re.sub(r'\s+', ' ', s)`: collapse every whitespace run to one space. -/
def collapseWs : List Char → List Char
  | [] => []
  | c :: cs =>
      if isPySpace c then ' ' :: collapseWs (cs.dropWhile isPySpace)
      else c :: collapseWs cs
termination_by l => l.length
decreasing_by
  · simp only [List.length_cons]
    exact Nat.lt_succ_of_le (List.dropWhile_sublist isPySpace).length_le
  · simp

/-- One step of the prefix-stripping loop of lines 150-153. -/
def dropLeadingThe (pre s : List Char) : List Char :=
  if startsWith pre s then s.drop pre.length else s

/-- `GeographicExtractor._clean_location_text` (lines 133-171): collapse
whitespace on the stripped text, strip a leading `"the "` then `"The "`,
reject non-geographic terms, and require length at least 2 with at least
one ASCII letter. -/
def cleanLocationText (location_text : List Char) : Option (List Char) :=
  if location_text.isEmpty then none
  else
    let c1 := collapseWs (pyStrip location_text)
    let c2 := dropLeadingThe (chars "the ") c1
    let c3 := dropLeadingThe (chars "The ") c2
    if pyLower c3 ∈ nonGeographicTerms then none
    else if c3.length < 2 ∨ ¬(c3.any isAsciiLetter) then none
    else some c3

/-- The dict built for each accepted entity (lines 110-117).  spaCy spans
carry no `score` attribute, so `getattr(ent, 'score', 1.0)` is always 1.0. -/
structure LocationInfo where
  text : List Char
  original_text : List Char
  start_char : ℕ
  end_char : ℕ
  label : List Char
  confidence : ℚ

/-- `config.MAX_LOCATIONS_PER_ARTICLE` (`config.py` line 35). -/
def MAX_LOCATIONS_PER_ARTICLE : ℕ := 10

/-- The entity loop of `extract_locations` (lines 98-120), threading the
`locations` accumulator and the `seen_locations` set. -/
def extractLoop :
    List SpacyEnt → List LocationInfo → List (List Char) → List LocationInfo
  | [], acc, _ => acc
  | ent :: rest, acc, seen =>
      if ent.label ∈ geoLabels then
        let location_text := pyStrip ent.text
        match cleanLocationText location_text with
        | some cleaned =>
            if pyLower cleaned ∉ seen ∧ 1 < cleaned.length then
              extractLoop rest
                (acc ++ [⟨cleaned, location_text, ent.start_char, ent.end_char,
                          ent.label, 1⟩])
                (seen ++ [pyLower cleaned])
            else extractLoop rest acc seen
        | none => extractLoop rest acc seen
      else extractLoop rest acc seen

/-- `GeographicExtractor.extract_locations` (lines 78-127): empty input (or
an unloaded model, folded into the oracle) yields `[]`; otherwise run the
entity loop on `nlp(text)` and truncate to `MAX_LOCATIONS_PER_ARTICLE`. -/
def extract_locations (nlp : List Char → List SpacyEnt) (text : List Char) :
    List LocationInfo :=
  if text.isEmpty then []
  else
    let locations := extractLoop (nlp text) [] []
    if MAX_LOCATIONS_PER_ARTICLE < locations.length then
      locations.take MAX_LOCATIONS_PER_ARTICLE
    else locations

/-! ## ClusterAggregator: `CrisisMapper.aggregate_crises`

`mapper.py` lines 67-139.  Python's `round` is round-half-to-even on
floats; the coordinates exercised below are exactly representable decisions
in ℚ (see the header note).  The iteration order of
`set(location_names)` in `max(set(location_names), key=location_names.count)`
is unspecified in Python (string hashing is randomised per process), so the
aggregator is parametrised by a `setOrder` function producing that
iteration sequence; an admissible order is any permutation of the distinct
names. -/

/-- Python `round()` to an integer: round half to even. -/
def pyRoundInt (q : ℚ) : ℤ :=
  let f := ⌊q⌋
  if q - f < 1/2 then f
  else if 1/2 < q - f then f + 1
  else if f % 2 = 0 then f else f + 1

/-- `round(x * 2) / 2` (lines 98-99): round to the nearest 0.5 step. -/
def roundHalf (q : ℚ) : ℚ := (pyRoundInt (q * 2) : ℚ) / 2

/-- One entry of an article's `locations` list as consumed by the
aggregator.  `hasLat`/`hasLon` model the `'latitude' in loc` /
`'longitude' in loc` key-presence tests of line 93; `found_name` and
`text` are `Option`s because line 110 reads them with `dict.get`
fallbacks. -/
structure GeoLoc where
  geocoded : Bool
  hasLat : Bool
  hasLon : Bool
  latitude : ℚ
  longitude : ℚ
  found_name : Option (List Char)
  text : Option (List Char)

/-- One classified, geocoded input record of `aggregate_crises`, with the
`dict.get` defaults already applied (`predicted_category` defaults
`'Other'`). -/
structure CrisisItem where
  predicted_category : List Char
  locations : List GeoLoc
  publish_date : Option (List Char)

/-- `loc.get('found_name', loc.get('text', 'Unknown Location'))` (line 110). -/
def locName (l : GeoLoc) : List Char :=
  l.found_name.getD (l.text.getD (chars "Unknown Location"))

/-- The `for loc in locations: if loc.get('geocoded') and 'latitude' in loc
and 'longitude' in loc: ...; break` scan (lines 92-112): the first
acceptable location, if any. -/
def firstGeoLoc (ls : List GeoLoc) : Option GeoLoc :=
  ls.find? fun l => l.geocoded && l.hasLat && l.hasLon

/-- The grouping key `(lat_rounded, lon_rounded, category)` of line 102. -/
abbrev GroupKey := ℚ × ℚ × List Char

/-- The key built for one accepted location (lines 98-102). -/
def keyOf (loc : GeoLoc) (category : List Char) : GroupKey :=
  (roundHalf loc.latitude, roundHalf loc.longitude, category)

/-- The member dict appended at line 103-111.  `idx` is a ghost index (the
position of the crisis item in the input list) standing in for Python
object identity; `item` is the `crisis_item`/`article` back-reference. -/
structure Member where
  idx : ℕ
  item : CrisisItem
  exact_lat : ℚ
  exact_lon : ℚ
  location_name : List Char

/-- The member built for item `i` from its first geocoded location. -/
def mkMember (i : ℕ) (it : CrisisItem) (loc : GeoLoc) : Member :=
  ⟨i, it, loc.latitude, loc.longitude, locName loc⟩

/-- The `crisis_groups` defaultdict: insertion-ordered key/member-list pairs. -/
abbrev Groups := List (GroupKey × List Member)

/-- `crisis_groups[key].append(member)`: extend an existing group in place,
or append a fresh group at the end (Python dicts preserve insertion order). -/
def addMember (k : GroupKey) (m : Member) : Groups → Groups
  | [] => [(k, [m])]
  | (k', ms) :: rest =>
      if k' = k then (k', ms ++ [m]) :: rest
      else (k', ms) :: addMember k m rest

/-- The grouping loop of lines 86-112, over index-tagged input items. -/
def buildGroups : List (ℕ × CrisisItem) → Groups → Groups
  | [], gs => gs
  | (i, it) :: rest, gs =>
      match firstGeoLoc it.locations with
      | none => buildGroups rest gs
      | some loc =>
          buildGroups rest
            (addMember (keyOf loc it.predicted_category) (mkMember i it loc) gs)

/-- Tag a list with 0-based positions (ghost identity of input items). -/
def withIdx : ℕ → List CrisisItem → List (ℕ × CrisisItem)
  | _, [] => []
  | n, it :: rest => (n, it) :: withIdx (n + 1) rest

/-- Python `max(candidates, key=names.count)` scan: the first candidate
with maximal multiplicity in `names` wins. -/
def pyMaxCountGo (names : List (List Char)) (best : List Char) :
    List (List Char) → List Char
  | [] => best
  | x :: xs =>
      if names.count best < names.count x then pyMaxCountGo names x xs
      else pyMaxCountGo names best xs

/-- `max(set(location_names), key=location_names.count)` over a given
set-iteration sequence; `none` is Python's `ValueError` on an empty set
(unreachable for the non-empty groups the source iterates). -/
def pyMaxCount (names : List (List Char)) : List (List Char) → Option (List Char)
  | [] => none
  | x :: xs => some (pyMaxCountGo names x xs)

/-- The aggregated crisis dict of lines 128-136. -/
structure Cluster where
  lat : ℚ
  lon : ℚ
  category : List Char
  location_name : List Char
  article_count : ℕ
  members : List Member
  dates : List (List Char)

/-- Build one aggregated crisis object from a group (lines 116-136):
centroid as arithmetic mean of the exact member coordinates, mode of the
member display names (tie broken by `setOrder`, the `set` iteration). -/
def mkCluster (setOrder : List (List Char) → List (List Char)) (k : GroupKey)
    (ms : List Member) : Cluster :=
  let names := ms.map (·.location_name)
  { lat := (ms.map (·.exact_lat)).sum / (ms.length : ℚ)
    lon := (ms.map (·.exact_lon)).sum / (ms.length : ℚ)
    category := k.2.2
    location_name := (pyMaxCount names (setOrder names)).getD (chars "Unknown Location")
    article_count := ms.length
    members := ms
    dates := ms.filterMap (·.item.publish_date) }

/-- `CrisisMapper.aggregate_crises` (`mapper.py` lines 67-139), parametrised
by the `set` iteration order used for the representative-name mode. -/
def aggregate_crises (setOrder : List (List Char) → List (List Char))
    (crisis_data : List CrisisItem) : List Cluster :=
  ((buildGroups (withIdx 0 crisis_data) []).filter (fun g => !g.2.isEmpty)).map
    fun g => mkCluster setOrder g.1 g.2

/-- The distinct values of a list in first-occurrence order: the reference
enumeration against which admissible `set` iteration orders are measured
(an admissible order is a permutation of this list). -/
def firstDedupAux {α : Type _} [DecidableEq α] (seen : List α) : List α → List α
  | [] => []
  | x :: xs =>
      if x ∈ seen then firstDedupAux seen xs
      else x :: firstDedupAux (x :: seen) xs

/-- `firstDedup l` keeps the first occurrence of each distinct value of `l`. -/
def firstDedup {α : Type _} [DecidableEq α] (l : List α) : List α :=
  firstDedupAux [] l

/-- The grouping keys produced by the geocoded input items, in input order
(with multiplicity). -/
def geoKeys (pairs : List (ℕ × CrisisItem)) : List GroupKey :=
  pairs.filterMap fun p =>
    (firstGeoLoc p.2.locations).map fun loc => keyOf loc p.2.predicted_category

/-- The ghost indices of the input items owning a first geocoded location. -/
def geoIdxs (pairs : List (ℕ × CrisisItem)) : List ℕ :=
  pairs.filterMap fun p =>
    if (firstGeoLoc p.2.locations).isSome then some p.1 else none

/-- All member indices across all groups, flattened. -/
def memberIdxs (gs : Groups) : List ℕ := (gs.map fun g => g.2.map (·.idx)).flatten

/-- All member indices across all output clusters, flattened. -/
def clusterIdxs (cs : List Cluster) : List ℕ :=
  (cs.map fun c => c.members.map (·.idx)).flatten

/-- Invariant of the entity loop: if the accumulator's lowercased texts are
duplicate-free and all recorded in `seen`, the final accumulator's
lowercased texts are duplicate-free (a candidate is appended only when its
lowercased text is not yet in `seen`, and is then added to `seen`). -/
theorem extractLoop_nodup (ents : List SpacyEnt) (acc : List LocationInfo)
    (seen : List (List Char))
    (hnd : (acc.map fun l => pyLower l.text).Nodup)
    (hseen : ∀ l ∈ acc, pyLower l.text ∈ seen) :
    ((extractLoop ents acc seen).map fun l => pyLower l.text).Nodup := by
  induction ents generalizing acc seen with
  | nil => simpa [extractLoop] using hnd
  | cons ent rest ih =>
      simp only [extractLoop]
      by_cases hlab : ent.label ∈ geoLabels
      · rw [if_pos hlab]
        cases hcl : cleanLocationText (pyStrip ent.text) with
        | none => exact ih acc seen hnd hseen
        | some cleaned =>
            dsimp only
            by_cases hc : pyLower cleaned ∉ seen ∧ 1 < cleaned.length
            · rw [if_pos hc]
              apply ih
              · simp only [List.map_append, List.map_cons, List.map_nil]
                rw [List.nodup_append]
                refine ⟨hnd, List.nodup_singleton _, ?_⟩
                intro x hx hx1
                simp only [List.mem_singleton] at hx1
                subst hx1
                obtain ⟨l, hl, hlx⟩ := List.mem_map.mp hx
                exact hc.1 (hlx ▸ hseen l hl)
              · intro l hl
                rcases List.mem_append.mp hl with h | h
                · exact List.mem_append_left _ (hseen l h)
                · simp only [List.mem_singleton] at h
                  subst h
                  simp
            · rw [if_neg hc]
              exact ih acc seen hnd hseen
      · rw [if_neg hlab]
        exact ih acc seen hnd hseen

/-- Claim C10: for every input text and every entity list the NER
collaborator may produce, `extract_locations` returns at most
`MAX_LOCATIONS_PER_ARTICLE` (= 10) candidates, and no two returned
candidates share the same cleaned text up to lowercasing. -/
theorem c10_extract_locations_bounded_deduped
    (nlp : List Char → List SpacyEnt) (text : List Char) :
    (extract_locations nlp text).length ≤ MAX_LOCATIONS_PER_ARTICLE ∧
    ((extract_locations nlp text).map fun l => pyLower l.text).Nodup := by
  unfold extract_locations
  by_cases ht : text.isEmpty
  · simp [ht]
  · rw [if_neg (by simpa using ht)]
    have hnd := extractLoop_nodup (nlp text) [] [] (by simp) (by simp)
    by_cases hlen :
        MAX_LOCATIONS_PER_ARTICLE < (extractLoop (nlp text) [] []).length
    · rw [if_pos hlen]
      constructor
      · simp [List.length_take]
      · rw [List.map_take]
        exact (List.take_sublist _ _).nodup hnd
    · rw [if_neg hlen]
      exact ⟨Nat.le_of_not_lt hlen, hnd⟩

/-! ### Aggregator lemmas -/

theorem memberIdxs_nil : memberIdxs [] = [] := rfl

theorem memberIdxs_cons (g : GroupKey × List Member) (gs : Groups) :
    memberIdxs (g :: gs) = g.2.map (·.idx) ++ memberIdxs gs := rfl

theorem geoIdxs_nil : geoIdxs [] = [] := rfl

theorem geoIdxs_cons (p : ℕ × CrisisItem) (pairs : List (ℕ × CrisisItem)) :
    geoIdxs (p :: pairs) =
      (if (firstGeoLoc p.2.locations).isSome then [p.1] else []) ++ geoIdxs pairs := by
  simp only [geoIdxs, List.filterMap_cons]
  cases (firstGeoLoc p.2.locations).isSome <;> simp

theorem count_memberIdxs_addMember (k : GroupKey) (m : Member) (gs : Groups)
    (j : ℕ) :
    (memberIdxs (addMember k m gs)).count j =
      (memberIdxs gs).count j + (if m.idx = j then 1 else 0) := by
  induction gs with
  | nil =>
      rw [show addMember k m [] = [(k, [m])] from rfl, memberIdxs_cons]
      simp [memberIdxs_nil, List.count_cons]
  | cons g rest ih =>
      obtain ⟨k', ms⟩ := g
      rw [show addMember k m ((k', ms) :: rest)
            = if k' = k then (k', ms ++ [m]) :: rest
              else (k', ms) :: addMember k m rest from rfl]
      by_cases h : k' = k
      · rw [if_pos h, memberIdxs_cons, memberIdxs_cons]
        simp only [List.count_append, List.map_append, List.map_cons,
          List.map_nil, List.count_cons, List.count_nil, beq_iff_eq]
        omega
      · rw [if_neg h, memberIdxs_cons, memberIdxs_cons]
        simp only [List.count_append]
        rw [ih]
        omega

theorem count_memberIdxs_buildGroups (pairs : List (ℕ × CrisisItem))
    (gs : Groups) (j : ℕ) :
    (memberIdxs (buildGroups pairs gs)).count j =
      (memberIdxs gs).count j + (geoIdxs pairs).count j := by
  induction pairs generalizing gs with
  | nil => simp [buildGroups, geoIdxs_nil]
  | cons p rest ih =>
      obtain ⟨i, it⟩ := p
      rw [geoIdxs_cons]
      cases hg : firstGeoLoc it.locations with
      | none =>
          simp only [buildGroups, hg]
          rw [ih]
          simp [hg]
      | some loc =>
          simp only [buildGroups, hg]
          rw [ih, count_memberIdxs_addMember]
          simp only [hg, Option.isSome_some, if_true, List.count_append,
            List.count_cons, List.count_nil, mkMember, beq_iff_eq]
          omega

theorem geoIdxs_withIdx_ge (items : List CrisisItem) (n : ℕ) :
    ∀ j ∈ geoIdxs (withIdx n items), n ≤ j := by
  induction items generalizing n with
  | nil => simp [withIdx, geoIdxs_nil]
  | cons it rest ih =>
      intro j hj
      rw [show withIdx n (it :: rest) = (n, it) :: withIdx (n + 1) rest from rfl,
        geoIdxs_cons] at hj
      rcases List.mem_append.mp hj with h | h
      · cases hs : (firstGeoLoc it.locations).isSome <;> rw [hs] at h
        · simp at h
        · simp only [if_true, List.mem_singleton] at h
          exact h ▸ le_refl n
      · exact le_of_lt (Nat.lt_of_succ_le (ih (n + 1) j h))

theorem count_geoIdxs_withIdx (items : List CrisisItem) (n k : ℕ)
    (hk : k < items.length) :
    (geoIdxs (withIdx n items)).count (n + k) =
      if (firstGeoLoc (items.get ⟨k, hk⟩).locations).isSome then 1 else 0 := by
  induction items generalizing n k with
  | nil => exact absurd hk (by simp)
  | cons it rest ih =>
      rw [show withIdx n (it :: rest) = (n, it) :: withIdx (n + 1) rest from rfl,
        geoIdxs_cons, List.count_append]
      cases k with
      | zero =>
          have htail : (geoIdxs (withIdx (n + 1) rest)).count (n + 0) = 0 := by
            rw [List.count_eq_zero]
            intro hmem
            have := geoIdxs_withIdx_ge rest (n + 1) (n + 0) hmem
            omega
          rw [htail]
          rw [show (it :: rest).get ⟨0, hk⟩ = it from rfl]
          cases hs : (firstGeoLoc it.locations).isSome <;>
            simp [hs, List.count_cons]
      | succ k2 =>
          have hk2 : k2 < rest.length := by simpa using Nat.lt_of_succ_lt_succ hk
          have hrec := ih (n + 1) k2 hk2
          have harith : n + 1 + k2 = n + (k2 + 1) := by omega
          rw [harith] at hrec
          rw [hrec]
          rw [show (it :: rest).get ⟨k2 + 1, hk⟩ = rest.get ⟨k2, hk2⟩ from rfl]
          have hne : ¬(n + (k2 + 1) = n) := by omega
          have hne2 : ¬(n = n + (k2 + 1)) := by omega
          cases hs : (firstGeoLoc it.locations).isSome <;>
            simp [hs, List.count_cons, hne, hne2]

theorem countP_groups_le_count (gs : Groups) (j : ℕ) :
    gs.countP (fun g => g.2.any fun m => m.idx == j) ≤
      (memberIdxs gs).count j := by
  induction gs with
  | nil => simp [memberIdxs_nil]
  | cons g rest ih =>
      rw [memberIdxs_cons, List.count_append, List.countP_cons]
      cases hp : g.2.any fun m => m.idx == j with
      | false => rw [if_neg (by simp)]; omega
      | true =>
          have hpos : 0 < (g.2.map (·.idx)).count j := by
            rw [List.count_pos_iff]
            obtain ⟨m, hm, hmj⟩ := List.any_eq_true.mp hp
            exact List.mem_map.mpr ⟨m, hm, by simpa using hmj⟩
          rw [if_pos rfl]
          omega

theorem countP_groups_pos (gs : Groups) (j : ℕ)
    (h : 0 < (memberIdxs gs).count j) :
    0 < gs.countP (fun g => g.2.any fun m => m.idx == j) := by
  induction gs with
  | nil => simp [memberIdxs_nil] at h
  | cons g rest ih =>
      rw [memberIdxs_cons, List.count_append] at h
      rw [List.countP_cons]
      by_cases hg : 0 < (g.2.map (·.idx)).count j
      · have hx : j ∈ g.2.map (·.idx) := List.count_pos_iff.mp hg
        obtain ⟨m, hm, hmx⟩ := List.mem_map.mp hx
        have hany : (g.2.any fun m => m.idx == j) = true :=
          List.any_eq_true.mpr ⟨m, hm, by simp [hmx]⟩
        simp [hany]
      · have h2 : 0 < (memberIdxs rest).count j := by omega
        have := ih h2
        omega

theorem keys_addMember (k : GroupKey) (m : Member) (gs : Groups) :
    (addMember k m gs).map Prod.fst =
      if k ∈ gs.map Prod.fst then gs.map Prod.fst
      else gs.map Prod.fst ++ [k] := by
  induction gs with
  | nil => simp [addMember]
  | cons g rest ih =>
      obtain ⟨k', ms⟩ := g
      by_cases h : k' = k
      · simp [addMember, h]
      · simp only [addMember, h, if_false, List.map_cons, ih]
        by_cases h2 : k ∈ rest.map Prod.fst
        · simp [h2, List.mem_cons, Ne.symm h]
        · simp [h2, List.mem_cons, Ne.symm h]

theorem firstDedupAux_congr {α : Type _} [DecidableEq α] (l : List α)
    (s₁ s₂ : List α) (h : ∀ x, x ∈ s₁ ↔ x ∈ s₂) :
    firstDedupAux s₁ l = firstDedupAux s₂ l := by
  induction l generalizing s₁ s₂ with
  | nil => rfl
  | cons x xs ih =>
      by_cases hx : x ∈ s₁
      · simp [firstDedupAux, hx, (h x).mp hx, ih _ _ h]
      · have hx2 : x ∉ s₂ := fun hh => hx ((h x).mpr hh)
        simp only [firstDedupAux, hx, hx2, if_false]
        rw [ih (x :: s₁) (x :: s₂) (fun y => by simp [List.mem_cons, h y])]

theorem firstDedupAux_cons_seen {α : Type _} [DecidableEq α] (seen : List α)
    (x : α) (xs : List α) (hx : x ∈ seen) :
    firstDedupAux seen (x :: xs) = firstDedupAux seen xs := by
  simp [firstDedupAux, hx]

theorem firstDedupAux_cons_not_seen {α : Type _} [DecidableEq α] (seen : List α)
    (x : α) (xs : List α) (hx : x ∉ seen) :
    firstDedupAux seen (x :: xs) = x :: firstDedupAux (x :: seen) xs := by
  simp [firstDedupAux, hx]

theorem geoKeys_cons_none (p : ℕ × CrisisItem) (pairs : List (ℕ × CrisisItem))
    (hg : firstGeoLoc p.2.locations = none) :
    geoKeys (p :: pairs) = geoKeys pairs := by
  simp [geoKeys, List.filterMap_cons, hg]

theorem geoKeys_cons_some (p : ℕ × CrisisItem) (pairs : List (ℕ × CrisisItem))
    (loc : GeoLoc) (hg : firstGeoLoc p.2.locations = some loc) :
    geoKeys (p :: pairs) =
      keyOf loc p.2.predicted_category :: geoKeys pairs := by
  simp [geoKeys, List.filterMap_cons, hg]

theorem keys_buildGroups (pairs : List (ℕ × CrisisItem)) (gs : Groups) :
    (buildGroups pairs gs).map Prod.fst =
      gs.map Prod.fst ++ firstDedupAux (gs.map Prod.fst) (geoKeys pairs) := by
  induction pairs generalizing gs with
  | nil => simp [buildGroups, geoKeys, firstDedupAux]
  | cons p rest ih =>
      obtain ⟨i, it⟩ := p
      cases hg : firstGeoLoc it.locations with
      | none =>
          rw [geoKeys_cons_none (i, it) rest hg]
          simp only [buildGroups, hg]
          exact ih gs
      | some loc =>
          rw [geoKeys_cons_some (i, it) rest loc hg]
          simp only [buildGroups, hg]
          rw [ih, keys_addMember]
          by_cases hk : keyOf loc (i, it).2.predicted_category ∈ gs.map Prod.fst
          · rw [if_pos hk, firstDedupAux_cons_seen _ _ _ hk]
          · rw [if_neg hk, firstDedupAux_cons_not_seen _ _ _ hk,
              firstDedupAux_congr (geoKeys rest)
                (gs.map Prod.fst ++ [keyOf loc (i, it).2.predicted_category])
                (keyOf loc (i, it).2.predicted_category :: gs.map Prod.fst)
                (fun y => by simp [List.mem_append, List.mem_cons, or_comm])]
            simp [List.append_assoc]

theorem firstDedupAux_nodup {α : Type _} [DecidableEq α] (l : List α) :
    ∀ seen : List α,
      (firstDedupAux seen l).Nodup ∧ ∀ x ∈ firstDedupAux seen l, x ∉ seen := by
  induction l with
  | nil => intro seen; simp [firstDedupAux]
  | cons x xs ih =>
      intro seen
      by_cases hx : x ∈ seen
      · simpa [firstDedupAux, hx] using ih seen
      · simp only [firstDedupAux, hx, if_false]
        obtain ⟨hnd, hdisj⟩ := ih (x :: seen)
        refine ⟨List.nodup_cons.mpr ⟨?_, hnd⟩, ?_⟩
        · intro hmem
          exact hdisj x hmem (List.mem_cons_self x seen)
        · intro y hy
          rcases List.mem_cons.mp hy with rfl | hy2
          · exact hx
          · intro hys
            exact hdisj y hy2 (List.mem_cons_of_mem x hys)

theorem buildGroups_members_ne_nil (pairs : List (ℕ × CrisisItem)) (gs : Groups)
    (h : ∀ g ∈ gs, g.2 ≠ []) : ∀ g ∈ buildGroups pairs gs, g.2 ≠ [] := by
  induction pairs generalizing gs with
  | nil => simpa [buildGroups] using h
  | cons p rest ih =>
      obtain ⟨i, it⟩ := p
      cases hg : firstGeoLoc it.locations with
      | none => simpa [buildGroups, hg] using ih gs h
      | some loc =>
          simp only [buildGroups, hg]
          apply ih
          clear ih
          induction gs with
          | nil => simp [addMember]
          | cons g0 rest0 ih0 =>
              obtain ⟨k', ms⟩ := g0
              by_cases hk : k' = keyOf loc it.predicted_category
              · intro g hgmem
                simp only [addMember, hk, if_pos rfl] at hgmem
                rcases List.mem_cons.mp hgmem with rfl | hgm
                · simp
                · exact h g (List.mem_cons_of_mem _ hgm)
              · intro g hgmem
                simp only [addMember, hk, if_neg hk] at hgmem
                rcases List.mem_cons.mp hgmem with rfl | hgm
                · exact h (k', ms) (List.mem_cons_self _ _)
                · exact ih0 (fun g' hg' => h g' (List.mem_cons_of_mem _ hg')) g hgm

theorem aggregate_eq_map_mkCluster
    (order : List (List Char) → List (List Char)) (items : List CrisisItem) :
    aggregate_crises order items =
      (buildGroups (withIdx 0 items) []).map fun g => mkCluster order g.1 g.2 := by
  unfold aggregate_crises
  congr 1
  apply List.filter_eq_self.mpr
  intro g hg
  have := buildGroups_members_ne_nil (withIdx 0 items) [] (by simp) g hg
  simpa using this

theorem clusterIdxs_aggregate
    (order : List (List Char) → List (List Char)) (items : List CrisisItem) :
    clusterIdxs (aggregate_crises order items) =
      memberIdxs (buildGroups (withIdx 0 items) []) := by
  rw [aggregate_eq_map_mkCluster]
  simp [clusterIdxs, memberIdxs, List.map_map]
  rfl

theorem countP_aggregate
    (order : List (List Char) → List (List Char)) (items : List CrisisItem)
    (j : ℕ) :
    (aggregate_crises order items).countP
        (fun c => c.members.any fun m => m.idx == j) =
      (buildGroups (withIdx 0 items) []).countP
        (fun g => g.2.any fun m => m.idx == j) := by
  rw [aggregate_eq_map_mkCluster, List.countP_map]
  rfl

/-- Provenance of one cluster member: it stands for input item number
`m.idx`, its exact coordinates and display name come from that item's
*first* geocoded location, and its group's key is that location's rounded
coordinates paired with the item's category. -/
def MemberSrc (items : List CrisisItem) (k : GroupKey) (m : Member) : Prop :=
  items.get? m.idx = some m.item ∧
  ∃ loc, firstGeoLoc m.item.locations = some loc ∧
    m.exact_lat = loc.latitude ∧ m.exact_lon = loc.longitude ∧
    m.location_name = locName loc ∧
    k = keyOf loc m.item.predicted_category

theorem memberSrc_addMember (items : List CrisisItem) (k : GroupKey)
    (m : Member) (gs : Groups)
    (h : ∀ g ∈ gs, ∀ m2 ∈ g.2, MemberSrc items g.1 m2)
    (hm : MemberSrc items k m) :
    ∀ g ∈ addMember k m gs, ∀ m2 ∈ g.2, MemberSrc items g.1 m2 := by
  induction gs with
  | nil =>
      intro g hg m2 hm2
      rw [show addMember k m [] = [(k, [m])] from rfl] at hg
      simp only [List.mem_singleton] at hg
      subst hg
      simp only [List.mem_singleton] at hm2
      subst hm2
      exact hm
  | cons g0 rest ih =>
      obtain ⟨k', ms⟩ := g0
      rw [show addMember k m ((k', ms) :: rest)
            = if k' = k then (k', ms ++ [m]) :: rest
              else (k', ms) :: addMember k m rest from rfl]
      by_cases hk : k' = k
      · rw [if_pos hk]
        intro g hg m2 hm2
        rcases List.mem_cons.mp hg with rfl | hgr
        · rcases List.mem_append.mp hm2 with h1 | h1
          · exact h (k', ms) (List.mem_cons_self _ _) m2 h1
          · simp only [List.mem_singleton] at h1
            subst h1
            subst hk
            exact hm
        · exact h g (List.mem_cons_of_mem _ hgr) m2 hm2
      · rw [if_neg hk]
        intro g hg m2 hm2
        rcases List.mem_cons.mp hg with rfl | hgr
        · exact h (k', ms) (List.mem_cons_self _ _) m2 hm2
        · exact ih (fun g' hg' => h g' (List.mem_cons_of_mem _ hg')) g hgr m2 hm2

theorem memberSrc_buildGroups (items : List CrisisItem)
    (pairs : List (ℕ × CrisisItem)) (gs : Groups)
    (hpairs : ∀ p ∈ pairs, items.get? p.1 = some p.2)
    (h : ∀ g ∈ gs, ∀ m2 ∈ g.2, MemberSrc items g.1 m2) :
    ∀ g ∈ buildGroups pairs gs, ∀ m2 ∈ g.2, MemberSrc items g.1 m2 := by
  induction pairs generalizing gs with
  | nil => simpa [buildGroups] using h
  | cons p rest ih =>
      obtain ⟨i, it⟩ := p
      cases hg : firstGeoLoc it.locations with
      | none =>
          simp only [buildGroups, hg]
          exact ih gs (fun q hq => hpairs q (List.mem_cons_of_mem _ hq)) h
      | some loc =>
          simp only [buildGroups, hg]
          exact ih _ (fun q hq => hpairs q (List.mem_cons_of_mem _ hq))
            (memberSrc_addMember items _ _ _ h
              ⟨hpairs (i, it) (List.mem_cons_self _ _), loc, hg, rfl, rfl, rfl,
               rfl⟩)

theorem mem_withIdx_get? (items : List CrisisItem) (n : ℕ)
    (p : ℕ × CrisisItem) (hp : p ∈ withIdx n items) :
    n ≤ p.1 ∧ items.get? (p.1 - n) = some p.2 := by
  induction items generalizing n with
  | nil => simp [withIdx] at hp
  | cons it rest ih =>
      rw [show withIdx n (it :: rest) = (n, it) :: withIdx (n + 1) rest from rfl]
        at hp
      rcases List.mem_cons.mp hp with rfl | hp2
      · simp
      · obtain ⟨hle, hget⟩ := ih (n + 1) hp2
        refine ⟨by omega, ?_⟩
        have harith : p.1 - n = (p.1 - (n + 1)) + 1 := by omega
        rw [harith]
        simpa using hget

/-- Claim C6: for every input list (and any `set` iteration order), every
article owning at least one geocoded location lands in exactly one output
cluster — its index occurs exactly once across all member lists and exactly
one cluster contains it; an article with no geocoded location is in no
cluster; no two groups share a `(rounded_lat, rounded_lon, category)` key;
and every member's coordinates, name and grouping key are determined by the
first geocoded location of its own article. -/
theorem c6_clustering_partition (order : List (List Char) → List (List Char))
    (items : List CrisisItem) (i : ℕ) (hi : i < items.length) :
    ((firstGeoLoc (items.get ⟨i, hi⟩).locations).isSome →
        (clusterIdxs (aggregate_crises order items)).count i = 1 ∧
        (aggregate_crises order items).countP
            (fun c => c.members.any fun m => m.idx == i) = 1) ∧
    ((firstGeoLoc (items.get ⟨i, hi⟩).locations).isSome = false →
        (clusterIdxs (aggregate_crises order items)).count i = 0) ∧
    ((buildGroups (withIdx 0 items) []).map Prod.fst).Nodup ∧
    (∀ g ∈ buildGroups (withIdx 0 items) [], ∀ m ∈ g.2,
        MemberSrc items g.1 m) := by
  have hcount : (clusterIdxs (aggregate_crises order items)).count i =
      if (firstGeoLoc (items.get ⟨i, hi⟩).locations).isSome then 1 else 0 := by
    rw [clusterIdxs_aggregate, count_memberIdxs_buildGroups]
    have hgeo := count_geoIdxs_withIdx items 0 i hi
    rw [Nat.zero_add] at hgeo
    rw [hgeo]
    simp [memberIdxs_nil]
  refine ⟨?_, ?_, ?_, ?_⟩
  · intro hsome
    have h1 : (clusterIdxs (aggregate_crises order items)).count i = 1 := by
      rw [hcount, if_pos hsome]
    refine ⟨h1, ?_⟩
    rw [countP_aggregate]
    have hflat : (memberIdxs (buildGroups (withIdx 0 items) [])).count i = 1 := by
      rw [← clusterIdxs_aggregate order items]
      exact h1
    have hle := countP_groups_le_count (buildGroups (withIdx 0 items) []) i
    have hpos := countP_groups_pos (buildGroups (withIdx 0 items) []) i
      (by rw [hflat]; exact Nat.one_pos)
    omega
  · intro hnone
    have hne : ¬((firstGeoLoc (items.get ⟨i, hi⟩).locations).isSome = true) := by
      rw [hnone]
      simp
    rw [hcount, if_neg hne]
  · rw [keys_buildGroups]
    simpa using (firstDedupAux_nodup (geoKeys (withIdx 0 items)) []).1
  · apply memberSrc_buildGroups items (withIdx 0 items) []
    · intro p hp
      have := mem_withIdx_get? items 0 p hp
      simpa using this.2
    · simp

/-- A one-item input used to witness C6. -/
def witnessItem6 : CrisisItem :=
  ⟨chars "Political Conflicts",
   [⟨true, true, true, 0, 0, some (chars "W"), none⟩], none⟩

/-- Witness for C6: on a singleton input whose article is geocoded, item 0
occurs exactly once across the clusters, exactly one cluster contains it,
the group keys are duplicate-free and every member is sourced from its
article's first geocoded location. -/
theorem c6_clustering_partition_witness :
    ((firstGeoLoc ([witnessItem6].get ⟨0, by decide⟩).locations).isSome →
        (clusterIdxs (aggregate_crises firstDedup [witnessItem6])).count 0 = 1 ∧
        (aggregate_crises firstDedup [witnessItem6]).countP
            (fun c => c.members.any fun m => m.idx == 0) = 1) ∧
    ((firstGeoLoc ([witnessItem6].get ⟨0, by decide⟩).locations).isSome = false →
        (clusterIdxs (aggregate_crises firstDedup [witnessItem6])).count 0 = 0) ∧
    ((buildGroups (withIdx 0 [witnessItem6]) []).map Prod.fst).Nodup ∧
    (∀ g ∈ buildGroups (withIdx 0 [witnessItem6]) [], ∀ m ∈ g.2,
        MemberSrc [witnessItem6] g.1 m) :=
  c6_clustering_partition firstDedup [witnessItem6] 0 (by decide)

/-- Python string comparison `<=`: lexicographic by code point. -/
def strLe : List Char → List Char → Bool
  | [], _ => true
  | _ :: _, [] => false
  | a :: as, b :: bs => if a = b then strLe as bs else decide (a < b)

/-- The list is sorted ascending under `strLe`. -/
def isSortedStr : List (List Char) → Bool
  | [] => true
  | [_] => true
  | a :: b :: rest => strLe a b && isSortedStr (b :: rest)

/-- A geocoded location at the origin named `X`. -/
def locB : GeoLoc := ⟨true, true, true, 0, 0, some (chars "X"), none⟩

/-- A geocoded location at `(50, 50)` named `Y`. -/
def locA : GeoLoc := ⟨true, true, true, 50, 50, some (chars "Y"), none⟩

/-- Two geocoded items whose categories arrive in reverse alphabetical
order: `"B"` first, `"A"` second, at spatially distinct keys. -/
def itemsBA : List CrisisItem :=
  [⟨chars "B", [locB], none⟩, ⟨chars "A", [locA], none⟩]

/-- Claim C8, counterexample: `aggregate_crises` performs no sort — on an
input whose categories arrive as `"B"` then `"A"` (distinct rounded keys),
the output cluster categories are `["B", "A"]`, which is not sorted by
category. -/
theorem c8_not_sorted_counterexample :
    (aggregate_crises firstDedup itemsBA).map (·.category)
        = [chars "B", chars "A"] ∧
    isSortedStr ((aggregate_crises firstDedup itemsBA).map (·.category))
        = false := by
  have hk : ¬(((roundHalf 50, roundHalf 50, chars "A") : GroupKey)
      = (roundHalf 0, roundHalf 0, chars "B")) :=
    fun h => absurd (congrArg (fun t => t.2.2) h) (by decide)
  have hmap : (aggregate_crises firstDedup itemsBA).map (·.category)
      = [chars "B", chars "A"] := by
    rw [aggregate_eq_map_mkCluster, List.map_map]
    rw [show ((fun c => c.category) ∘ fun g : GroupKey × List Member =>
          mkCluster firstDedup g.1 g.2)
        = (fun k : GroupKey => k.2.2) ∘ Prod.fst from rfl]
    rw [← List.map_map, keys_buildGroups]
    rw [show geoKeys (withIdx 0 itemsBA)
        = [(roundHalf 0, roundHalf 0, chars "B"),
           (roundHalf 50, roundHalf 50, chars "A")] from rfl]
    simp [firstDedupAux, hk]
  exact ⟨hmap, by rw [hmap]; decide⟩

/-- Claim C8, amended: the cluster list is *not* sorted by category; the
groups (hence the output clusters) appear in the order in which their
grouping keys are first encountered in the input — Python dict insertion
order — and the output categories are exactly the third components of those
first-seen keys. -/
theorem c8_clusters_in_key_insertion_order
    (order : List (List Char) → List (List Char)) (items : List CrisisItem) :
    (buildGroups (withIdx 0 items) []).map Prod.fst
        = firstDedup (geoKeys (withIdx 0 items)) ∧
    (aggregate_crises order items).map (·.category)
        = (firstDedup (geoKeys (withIdx 0 items))).map (fun k => k.2.2) := by
  have hkeys := keys_buildGroups (withIdx 0 items) []
  simp only [List.map_nil, List.nil_append] at hkeys
  rw [show firstDedupAux ([] : List GroupKey) (geoKeys (withIdx 0 items))
      = firstDedup (geoKeys (withIdx 0 items)) from rfl] at hkeys
  refine ⟨hkeys, ?_⟩
  rw [aggregate_eq_map_mkCluster, List.map_map]
  rw [show ((fun c => c.category) ∘ fun g : GroupKey × List Member =>
        mkCluster order g.1 g.2)
      = (fun k : GroupKey => k.2.2) ∘ Prod.fst from rfl]
  rw [← List.map_map, hkeys]

theorem pyMaxCountGo_mem (names : List (List Char)) (best : List Char)
    (cands : List (List Char)) :
    pyMaxCountGo names best cands ∈ best :: cands := by
  induction cands generalizing best with
  | nil => simp [pyMaxCountGo]
  | cons x xs ih =>
      rw [show pyMaxCountGo names best (x :: xs)
          = if names.count best < names.count x then pyMaxCountGo names x xs
            else pyMaxCountGo names best xs from rfl]
      by_cases h : names.count best < names.count x
      · rw [if_pos h]
        exact List.mem_cons_of_mem _ (ih x)
      · rw [if_neg h]
        rcases List.mem_cons.mp (ih best) with h2 | h2
        · rw [h2]
          exact List.mem_cons_self _ _
        · exact List.mem_cons_of_mem _ (List.mem_cons_of_mem _ h2)

theorem pyMaxCountGo_maximal (names : List (List Char)) (best : List Char)
    (cands : List (List Char)) :
    ∀ y ∈ best :: cands,
      names.count y ≤ names.count (pyMaxCountGo names best cands) := by
  induction cands generalizing best with
  | nil =>
      intro y hy
      simp only [List.mem_singleton] at hy
      subst hy
      simp [pyMaxCountGo]
  | cons x xs ih =>
      intro y hy
      rw [show pyMaxCountGo names best (x :: xs)
          = if names.count best < names.count x then pyMaxCountGo names x xs
            else pyMaxCountGo names best xs from rfl]
      by_cases h : names.count best < names.count x
      · rw [if_pos h]
        rcases List.mem_cons.mp hy with rfl | hy2
        · exact le_of_lt (lt_of_lt_of_le h (ih x x (List.mem_cons_self _ _)))
        · exact ih x y hy2
      · rw [if_neg h]
        rcases List.mem_cons.mp hy with h2 | hy2
        · rw [h2]
          exact ih best best (List.mem_cons_self _ _)
        · rcases List.mem_cons.mp hy2 with h3 | hy3
          · rw [h3]
            exact le_trans (Nat.le_of_not_lt h)
              (ih best best (List.mem_cons_self _ _))
          · exact ih best y (List.mem_cons_of_mem _ hy3)

theorem mem_firstDedupAux_iff {α : Type _} [DecidableEq α] (l : List α) :
    ∀ (seen : List α) (x : α),
      x ∈ firstDedupAux seen l ↔ x ∈ l ∧ x ∉ seen := by
  induction l with
  | nil => simp [firstDedupAux]
  | cons y ys ih =>
      intro seen x
      by_cases hy : y ∈ seen
      · rw [firstDedupAux_cons_seen _ _ _ hy, ih]
        constructor
        · rintro ⟨h1, h2⟩
          exact ⟨List.mem_cons_of_mem _ h1, h2⟩
        · rintro ⟨h1, h2⟩
          rcases List.mem_cons.mp h1 with rfl | h3
          · exact absurd hy h2
          · exact ⟨h3, h2⟩
      · rw [firstDedupAux_cons_not_seen _ _ _ hy]
        constructor
        · intro hx
          rcases List.mem_cons.mp hx with rfl | hx2
          · exact ⟨List.mem_cons_self _ _, hy⟩
          · obtain ⟨h1, h2⟩ := (ih _ _).mp hx2
            exact ⟨List.mem_cons_of_mem _ h1,
              fun hs => h2 (List.mem_cons_of_mem _ hs)⟩
        · rintro ⟨h1, h2⟩
          rcases List.mem_cons.mp h1 with rfl | h3
          · exact List.mem_cons_self _ _
          · by_cases hxy : x = y
            · subst hxy
              exact List.mem_cons_self _ _
            · exact List.mem_cons_of_mem _
                ((ih _ _).mpr ⟨h3, by simp [List.mem_cons, hxy, h2]⟩)

theorem mem_firstDedup_iff {α : Type _} [DecidableEq α] (l : List α) (x : α) :
    x ∈ firstDedup l ↔ x ∈ l := by
  rw [firstDedup, mem_firstDedupAux_iff]
  simp

/-- Claim C9, amended: for every admissible `set` iteration order (any
permutation of the distinct member names), every cluster's representative
`location_name` is a most frequent display name among its members — but the
tie-break is whatever the set order dictates, not first-seen order. -/
theorem c9_mode_set_order_corrected
    (order : List (List Char) → List (List Char))
    (hadm : ∀ l : List (List Char), (order l).Perm (firstDedup l))
    (items : List CrisisItem) (c : Cluster)
    (hc : c ∈ aggregate_crises order items) (n : List Char)
    (hn : n ∈ c.members.map (·.location_name)) :
    c.location_name ∈ c.members.map (·.location_name) ∧
    (c.members.map (·.location_name)).count n ≤
      (c.members.map (·.location_name)).count c.location_name := by
  rw [aggregate_eq_map_mkCluster] at hc
  obtain ⟨g, hg, rfl⟩ := List.mem_map.mp hc
  have hne : g.2 ≠ [] :=
    buildGroups_members_ne_nil (withIdx 0 items) [] (by simp) g hg
  have hmem_eq : (mkCluster order g.1 g.2).members = g.2 := rfl
  rw [hmem_eq] at hn ⊢
  have hnames_ne : g.2.map (·.location_name) ≠ [] := by
    intro h
    exact hne (List.map_eq_nil_iff.mp h)
  have hfd_ne : firstDedup (g.2.map (·.location_name)) ≠ [] := by
    cases hcase : g.2.map (·.location_name) with
    | nil => exact absurd hcase hnames_ne
    | cons a as =>
        rw [firstDedup, firstDedupAux_cons_not_seen _ _ _ (by simp)]
        simp
  have hord_ne : order (g.2.map (·.location_name)) ≠ [] := by
    intro h
    have hlen := (hadm (g.2.map (·.location_name))).length_eq
    rw [h] at hlen
    exact hfd_ne (List.length_eq_zero.mp hlen.symm)
  obtain ⟨x, xs, hx⟩ := List.exists_cons_of_ne_nil hord_ne
  have hname_eq : (mkCluster order g.1 g.2).location_name
      = pyMaxCountGo (g.2.map (·.location_name)) x xs := by
    show (pyMaxCount (g.2.map (·.location_name))
        (order (g.2.map (·.location_name)))).getD (chars "Unknown Location") = _
    rw [hx]
    rfl
  rw [hname_eq]
  have hchosen_ord : pyMaxCountGo (g.2.map (·.location_name)) x xs
      ∈ order (g.2.map (·.location_name)) := by
    rw [hx]
    exact pyMaxCountGo_mem _ x xs
  have hchosen_names : pyMaxCountGo (g.2.map (·.location_name)) x xs
      ∈ g.2.map (·.location_name) :=
    (mem_firstDedup_iff _ _).mp
      ((hadm (g.2.map (·.location_name))).mem_iff.mp hchosen_ord)
  refine ⟨hchosen_names, ?_⟩
  have hn_ord : n ∈ x :: xs := by
    rw [← hx]
    exact (hadm (g.2.map (·.location_name))).mem_iff.mpr
      ((mem_firstDedup_iff _ n).mpr hn)
  exact pyMaxCountGo_maximal _ x xs n hn_ord

/-- A geocoded location at the origin carrying the display name `nm`. -/
def locNamed (nm : String) : GeoLoc :=
  ⟨true, true, true, 0, 0, some (chars nm), none⟩

/-- Two items in the same category at the same rounded key, whose display
names `"A"` (first seen) and `"B"` are tied with one occurrence each. -/
def itemsTie : List CrisisItem :=
  [⟨chars "C", [locNamed "A"], none⟩, ⟨chars "C", [locNamed "B"], none⟩]

/-- An admissible `set` iteration order that happens to enumerate the
distinct names in reverse first-seen order — Python never promises any
particular order for `set` iteration. -/
def revOrder (l : List (List Char)) : List (List Char) := (firstDedup l).reverse

/-- The single group formed from `itemsTie`: both members share the key
`(0.0, 0.0, "C")`. -/
theorem buildGroups_itemsTie :
    buildGroups (withIdx 0 itemsTie) [] =
      [((roundHalf 0, roundHalf 0, chars "C"),
        [⟨0, ⟨chars "C", [locNamed "A"], none⟩, 0, 0, chars "A"⟩,
         ⟨1, ⟨chars "C", [locNamed "B"], none⟩, 0, 0, chars "B"⟩])] := by
  simp [itemsTie, withIdx, buildGroups, addMember, keyOf, mkMember, locNamed,
    locName, firstGeoLoc, List.find?]

/-- Claim C9, counterexample: on the tied cluster of `itemsTie`, under the
admissible set order `revOrder`, the representative name is `"B"`, although
the name whose first occurrence comes earliest in member order is `"A"` —
the tie is broken by set iteration order, not first-seen order. -/
theorem c9_tie_not_first_seen_counterexample :
    (∀ l : List (List Char), (revOrder l).Perm (firstDedup l)) ∧
    (aggregate_crises revOrder itemsTie).map (·.location_name)
        = [chars "B"] ∧
    (aggregate_crises revOrder itemsTie).map
        (fun c => c.members.map (·.location_name)) = [[chars "A", chars "B"]] ∧
    chars "B" ≠ chars "A" := by
  have hloc : (pyMaxCount [chars "A", chars "B"]
      (revOrder [chars "A", chars "B"])).getD (chars "Unknown Location")
      = chars "B" := by decide
  refine ⟨fun l => (firstDedup l).reverse_perm, ?_, ?_, by decide⟩
  · rw [aggregate_eq_map_mkCluster, buildGroups_itemsTie]
    simp only [List.map_cons, List.map_nil, mkCluster]
    rw [hloc]
  · rw [aggregate_eq_map_mkCluster, buildGroups_itemsTie]
    simp [mkCluster]

/-- A default cluster value, used only to take the head of a concrete
nonempty cluster list in the witness below. -/
def defaultCluster : Cluster := ⟨0, 0, [], [], 0, [], []⟩

/-- Witness for C9 (amended): with `firstDedup` itself as the (admissible)
set order, the tied cluster of `itemsTie` picks a representative name that
occurs among its members at least as often as `"A"` does. -/
theorem c9_mode_set_order_witness :
    ((aggregate_crises firstDedup itemsTie).headD defaultCluster).location_name
        ∈ ((aggregate_crises firstDedup itemsTie).headD
            defaultCluster).members.map (·.location_name) ∧
    (((aggregate_crises firstDedup itemsTie).headD
        defaultCluster).members.map (·.location_name)).count (chars "A") ≤
      (((aggregate_crises firstDedup itemsTie).headD
          defaultCluster).members.map (·.location_name)).count
        (((aggregate_crises firstDedup itemsTie).headD
            defaultCluster).location_name) :=
  c9_mode_set_order_corrected firstDedup (fun _ => List.Perm.refl _) itemsTie
    ((aggregate_crises firstDedup itemsTie).headD defaultCluster)
    (by rw [aggregate_eq_map_mkCluster, buildGroups_itemsTie]; simp)
    (chars "A")
    (by rw [aggregate_eq_map_mkCluster, buildGroups_itemsTie]; simp [mkCluster])

theorem roundHalf_ten : roundHalf (1.0 : ℚ) = 1 := by
  rw [roundHalf, pyRoundInt]
  norm_num

theorem roundHalf_fourteen : roundHalf (1.4 : ℚ) = 3/2 := by
  rw [roundHalf, pyRoundInt]
  norm_num

theorem roundHalf_six : roundHalf (0.6 : ℚ) = 1/2 := by
  rw [roundHalf, pyRoundInt]
  norm_num

theorem roundHalf_eight : roundHalf (0.8 : ℚ) = 1 := by
  rw [roundHalf, pyRoundInt]
  norm_num

theorem roundHalf_twelve : roundHalf (1.2 : ℚ) = 1 := by
  rw [roundHalf, pyRoundInt]
  norm_num

theorem roundHalf_one : roundHalf (1 : ℚ) = 1 := by
  rw [roundHalf, pyRoundInt]
  norm_num

theorem roundHalf_sevenFifths : roundHalf ((7 : ℚ)/5) = 3/2 := by
  rw [roundHalf, pyRoundInt]
  norm_num

theorem roundHalf_threeFifths : roundHalf ((3 : ℚ)/5) = 1/2 := by
  rw [roundHalf, pyRoundInt]
  norm_num

theorem roundHalf_fourFifths : roundHalf ((4 : ℚ)/5) = 1 := by
  rw [roundHalf, pyRoundInt]
  norm_num

theorem roundHalf_sixFifths : roundHalf ((6 : ℚ)/5) = 1 := by
  rw [roundHalf, pyRoundInt]
  norm_num

/-- A geocoded location at exact coordinates `(la, lo)` named `Z`. -/
def locAt (la lo : ℚ) : GeoLoc :=
  ⟨true, true, true, la, lo, some (chars "Z"), none⟩

/-- The three members of claim C3, with exact coordinates `(1.0, 1.0)`,
`(1.4, 0.6)`, `(0.8, 1.2)`, all sharing one category. -/
def items3 : List CrisisItem :=
  [⟨chars "Political Conflicts", [locAt 1.0 1.0], none⟩,
   ⟨chars "Political Conflicts", [locAt 1.4 0.6], none⟩,
   ⟨chars "Political Conflicts", [locAt 0.8 1.2], none⟩]

/-- The groups formed from `items3`: members 0 and 2 share the key
`(1.0, 1.0)`, but member 1 rounds to `(1.5, 0.5)` and forms its own group. -/
theorem buildGroups_items3 :
    buildGroups (withIdx 0 items3) [] =
      [((1, 1, chars "Political Conflicts"),
        [⟨0, ⟨chars "Political Conflicts", [locAt 1.0 1.0], none⟩, 1.0, 1.0,
          chars "Z"⟩,
         ⟨2, ⟨chars "Political Conflicts", [locAt 0.8 1.2], none⟩, 0.8, 1.2,
          chars "Z"⟩]),
       ((3/2, 1/2, chars "Political Conflicts"),
        [⟨1, ⟨chars "Political Conflicts", [locAt 1.4 0.6], none⟩, 1.4, 0.6,
          chars "Z"⟩])] := by
  norm_num [items3, withIdx, buildGroups, addMember, keyOf, mkMember, locAt,
    locName, firstGeoLoc, List.find?, roundHalf_one, roundHalf_sevenFifths,
    roundHalf_threeFifths, roundHalf_fourFifths, roundHalf_sixFifths,
    Prod.ext_iff]

/-- Claim C3, counterexample: the claim asserts that the grouping key rounds
all three exact coordinates `(1.0,1.0)`, `(1.4,0.6)`, `(0.8,1.2)` to
`(1.0, 1.0)` so that they form one cluster.  But rounding to the nearest
0.5-degree step sends `1.4` to `1.5` (and `0.6` to `0.5`), so the member at
`(1.4, 0.6)` gets the key `(1.5, 0.5)` and the aggregator produces two
clusters, not one. -/
theorem c3_three_members_two_clusters_counterexample :
    roundHalf (1.4 : ℚ) = 3/2 ∧ ¬(roundHalf (1.4 : ℚ) = 1) ∧
    roundHalf (0.6 : ℚ) = 1/2 ∧
    (aggregate_crises firstDedup items3).length = 2 := by
  refine ⟨roundHalf_fourteen, ?_, roundHalf_six, ?_⟩
  · rw [roundHalf_fourteen]
    norm_num
  · rw [aggregate_eq_map_mkCluster, buildGroups_items3]
    rfl

/-- Claim C3, amended: on the three members of the claim, the grouping key
rounds `(1.0,1.0)` and `(0.8,1.2)` to `(1.0, 1.0)` — one cluster whose
centroid `(0.9, 1.1)` is the arithmetic mean of the exact, unrounded member
coordinates — while `(1.4,0.6)` rounds to `(1.5, 0.5)` and forms its own
cluster with centroid `(1.4, 0.6)`; the rounding is a grouping key only and
never enters the centroids. -/
theorem c3_centroid_mean_of_exact_coordinates :
    roundHalf (1.0 : ℚ) = 1 ∧ roundHalf (0.8 : ℚ) = 1 ∧
    roundHalf (1.2 : ℚ) = 1 ∧ roundHalf (1.4 : ℚ) = 3/2 ∧
    roundHalf (0.6 : ℚ) = 1/2 ∧
    (aggregate_crises firstDedup items3).map
        (fun c => (c.lat, c.lon, c.members.map (·.idx)))
      = [((9 : ℚ)/10, (11 : ℚ)/10, [0, 2]), ((7 : ℚ)/5, (3 : ℚ)/5, [1])] ∧
    (9 : ℚ)/10 = ((1.0 : ℚ) + 0.8) / 2 ∧
    (11 : ℚ)/10 = ((1.0 : ℚ) + 1.2) / 2 ∧
    (7 : ℚ)/5 = (1.4 : ℚ) / 1 ∧ (3 : ℚ)/5 = (0.6 : ℚ) / 1 := by
  refine ⟨roundHalf_ten, roundHalf_eight, roundHalf_twelve, roundHalf_fourteen,
    roundHalf_six, ?_, by norm_num, by norm_num, by norm_num, by norm_num⟩
  rw [aggregate_eq_map_mkCluster, buildGroups_items3]
  norm_num [mkCluster, Prod.ext_iff]

end Argus
